import Mathlib

/-!
Verification of the sidecar lifecycle manager in
`src/comandas-frontend/src-tauri/src/lib.rs`.

The program keeps at most one child-process handle in
`AppState { backend_process: Mutex<Option<CommandChild>> }`.
`start_backend` spawns the sidecar, stores the handle, and relays the
process event stream to stdout/stderr logs; the window close handler
takes the handle out of the mutex and kills it.

The shallow embedding below models:
  - a process handle (`CommandChild`) by its identity;
  - the host environment (`Host`): whether `app.try_state` finds the
    managed `AppState`, whether the mutex is poisoned, and the mutex
    contents (`Option CommandChild`);
  - the two supervisor operations (`storeHandle`, `closeHandler`) as
    pure state transformers that also report the kill signals sent and
    the log lines printed;
  - the relay loop as a function from the (drained) event channel,
    a finite list of `CommandEvent`s, to the list of log lines;
  - `start_backend` and the setup task wrapper, with the spawn outcome
    supplied by the environment as an `Except` value;
  - a small step-trace semantics (`Step`, `execStep`) for the ordering
    and frame claims about the startup task.
-/

namespace FoodFlow

/-- A handle to a spawned child process (`tauri_plugin_shell::process::CommandChild`),
identified by its process id. The program never inspects the handle beyond
moving it and calling `kill`, so identity is all the model needs. -/
structure CommandChild where
  pid : Nat
deriving DecidableEq, Repr

/-- The exit payload carried by `CommandEvent::Terminated`
(`tauri_plugin_shell::process::TerminatedPayload { code, signal }`). -/
structure TerminatedPayload where
  code : Option Int
  signal : Option Int
deriving DecidableEq, Repr

/-- One line of observable log output: `out` for `println!` (stdout),
`err` for `eprintln!` (stderr). -/
inductive LogEntry where
  | out (s : String)
  | err (s : String)
deriving DecidableEq, Repr

/-- The events delivered on the channel returned by `Command::spawn`
(`tauri_plugin_shell::process::CommandEvent`). `other` stands for any
further variant of the non-exhaustive enum, matched by the `_ => {}` arm. -/
inductive CommandEvent where
  | stdout (line : List Nat)
  | stderr (line : List Nat)
  | error (err : String)
  | terminated (payload : TerminatedPayload)
  | other
deriving DecidableEq, Repr

/-- The host-visible state the two supervisor operations touch:
whether `app.try_state::<AppState>()` returns `Some`, whether
`backend_process.lock()` fails (mutex poisoned), and the mutex
contents (the optional backend handle). -/
structure Host where
  stateAvailable : Bool
  poisoned : Bool
  handle : Option CommandChild
deriving DecidableEq, Repr

/-- Result of one supervisor operation: the host state afterwards, the
kill signals sent to child processes, and the log lines printed. -/
structure OpResult where
  host : Host
  kills : List CommandChild
  logs : List LogEntry
deriving DecidableEq, Repr

/-- The store in `start_backend` (lib.rs lines 69 to 73):

    if let Some(state) = app.try_state::<AppState>() {
      if let Ok(mut backend) = state.backend_process.lock() {
        *backend = Some(child);
      }
    }

No kill is sent and nothing is printed on any path. -/
def storeHandle (host : Host) (child : CommandChild) : OpResult :=
  if host.stateAvailable then
    if host.poisoned then ⟨host, [], []⟩
    else ⟨{ host with handle := some child }, [], []⟩
  else ⟨host, [], []⟩

/-- The window close handler (lib.rs lines 37 to 49), the take-and-kill
operation:

    if let Some(state) = app_handle.try_state::<AppState>() {
      if let Ok(mut backend) = state.backend_process.lock() {
        if let Some(mut child) = backend.take() {
          let _ = child.kill();
          println!("Backend detenido");
        }
      }
    }

`killOk` is the environment telling whether each `child.kill()` call
succeeds; the program discards that result (`let _ = ...`). -/
def closeHandler (killOk : CommandChild → Bool) (host : Host) : OpResult :=
  if host.stateAvailable then
    if host.poisoned then ⟨host, [], []⟩
    else
      match host.handle with
      | some child =>
          let _ := killOk child
          ⟨{ host with handle := none }, [child], [LogEntry.out "Backend detenido"]⟩
      | none => ⟨host, [], []⟩
  else ⟨host, [], []⟩

/-- A sequence of stores into the supervisor, folding `storeHandle` and
collecting every kill signal any of the stores sends. -/
def storeSeq (host : Host) : List CommandChild → Host × List CommandChild
  | [] => (host, [])
  | c :: rest =>
      let r := storeHandle host c
      let (h, ks) := storeSeq r.host rest
      (h, r.kills ++ ks)

/-- The Unicode replacement character U+FFFD, used by lossy decoding. -/
def replacementChar : Char := Char.ofNat 0xFFFD

/-- Is `b` a UTF-8 continuation byte (`0x80..=0xBF`)? -/
def isCont (b : Nat) : Bool := 0x80 ≤ b && b < 0xC0

/-- Valid second byte for a three-byte UTF-8 sequence with lead `b`
(excludes overlong encodings and surrogates, as UTF-8 does). -/
def cont3ok (b b2 : Nat) : Bool :=
  if b = 0xE0 then 0xA0 ≤ b2 && b2 < 0xC0
  else if b = 0xED then 0x80 ≤ b2 && b2 < 0xA0
  else isCont b2

/-- Valid second byte for a four-byte UTF-8 sequence with lead `b`
(excludes overlong encodings and code points above U+10FFFF). -/
def cont4ok (b b2 : Nat) : Bool :=
  if b = 0xF0 then 0x90 ≤ b2 && b2 < 0xC0
  else if b = 0xF4 then 0x80 ≤ b2 && b2 < 0x90
  else isCont b2

/-- UTF-8 decoding with U+FFFD substitution for invalid sequences,
modelling Rust `String::from_utf8_lossy`. The fuel argument (the byte
count at the start) only justifies termination: every call consumes at
least one byte. -/
def utf8DecodeLossyAux : Nat → List Nat → List Char
  | 0, _ => []
  | _ + 1, [] => []
  | fuel + 1, b :: rest =>
    if b < 0x80 then Char.ofNat b :: utf8DecodeLossyAux fuel rest
    else if b < 0xC2 then replacementChar :: utf8DecodeLossyAux fuel rest
    else if b ≤ 0xDF then
      match rest with
      | [] => [replacementChar]
      | b2 :: rest2 =>
          if isCont b2 then
            Char.ofNat ((b - 0xC0) * 0x40 + (b2 - 0x80)) :: utf8DecodeLossyAux fuel rest2
          else replacementChar :: utf8DecodeLossyAux fuel rest
    else if b ≤ 0xEF then
      match rest with
      | [] => [replacementChar]
      | b2 :: rest2 =>
          if cont3ok b b2 then
            match rest2 with
            | [] => [replacementChar]
            | b3 :: rest3 =>
                if isCont b3 then
                  Char.ofNat ((b - 0xE0) * 0x1000 + (b2 - 0x80) * 0x40 + (b3 - 0x80)) ::
                    utf8DecodeLossyAux fuel rest3
                else replacementChar :: utf8DecodeLossyAux fuel rest2
          else replacementChar :: utf8DecodeLossyAux fuel rest
    else if b ≤ 0xF4 then
      match rest with
      | [] => [replacementChar]
      | b2 :: rest2 =>
          if cont4ok b b2 then
            match rest2 with
            | [] => [replacementChar]
            | b3 :: rest3 =>
                if isCont b3 then
                  match rest3 with
                  | [] => [replacementChar]
                  | b4 :: rest4 =>
                      if isCont b4 then
                        Char.ofNat ((b - 0xF0) * 0x40000 + (b2 - 0x80) * 0x1000 +
                            (b3 - 0x80) * 0x40 + (b4 - 0x80)) ::
                          utf8DecodeLossyAux fuel rest4
                      else replacementChar :: utf8DecodeLossyAux fuel rest3
                else replacementChar :: utf8DecodeLossyAux fuel rest2
          else replacementChar :: utf8DecodeLossyAux fuel rest
    else replacementChar :: utf8DecodeLossyAux fuel rest

/-- Rust `String::from_utf8_lossy` on a byte list. -/
def fromUtf8Lossy (bs : List Nat) : String :=
  String.mk (utf8DecodeLossyAux bs.length bs)

/-- The derived `Debug` rendering of `Option<i32>`. -/
def optionIntDebug : Option Int → String
  | none => "None"
  | some n => "Some(" ++ toString n ++ ")"

/-- The derived `Debug` rendering of `TerminatedPayload`, as printed by
`println!("[Backend] Proceso terminado: {:?}", payload)`. -/
def payloadDebug (p : TerminatedPayload) : String :=
  "TerminatedPayload \x7b code: " ++ optionIntDebug p.code ++
    ", signal: " ++ optionIntDebug p.signal ++ " \x7d"

/-- The body of the relay loop (lib.rs lines 77 to 93): the log lines one
received event produces.

    CommandEvent::Stdout(line) => println!("[Backend STDOUT] {}", String::from_utf8_lossy(&line)),
    CommandEvent::Stderr(line) => eprintln!("[Backend STDERR] {}", String::from_utf8_lossy(&line)),
    CommandEvent::Error(err) => eprintln!("[Backend ERROR] {}", err),
    CommandEvent::Terminated(payload) => println!("[Backend] Proceso terminado: {:?}", payload),
    _ => {}

No arm touches any state: the loop body only prints. -/
def relayEvent : CommandEvent → List LogEntry
  | .stdout line => [LogEntry.out ("[Backend STDOUT] " ++ fromUtf8Lossy line)]
  | .stderr line => [LogEntry.err ("[Backend STDERR] " ++ fromUtf8Lossy line)]
  | .error err => [LogEntry.err ("[Backend ERROR] " ++ err)]
  | .terminated payload => [LogEntry.out ("[Backend] Proceso terminado: " ++ payloadDebug payload)]
  | .other => []

/-- The relay loop `while let Some(event) = rx.recv().await { ... }`:
the channel is modelled as the finite list of events it delivers before
closing; the loop processes every event in order and stops exactly when
the list is exhausted (the channel closes). -/
def relayLoop : List CommandEvent → List LogEntry
  | [] => []
  | e :: rest => relayEvent e ++ relayLoop rest

/-- The fixed logical sidecar name (`let sidecar_name = "backend";`). -/
def sidecarName : String := "backend"

/-- Failure of `shell.sidecar(sidecar_name)?` (binary cannot be resolved)
or of `.spawn()?` (OS-level spawn failure); both propagate out of
`start_backend` via `?`. -/
inductive SpawnError where
  | sidecarResolve (msg : String)
  | spawnFail (msg : String)
deriving DecidableEq, Repr

/-- The `Display` text of the boxed error, as interpolated by
`eprintln!("Error al iniciar backend: {}", e)`. -/
def SpawnError.msg : SpawnError → String
  | .sidecarResolve m => m
  | .spawnFail m => m

/-- Everything observable about one run of `start_backend`: its return
value, the host state afterwards, the kill signals the store sent, the
relay task log output, and the log lines `start_backend` itself prints. -/
structure BackendRun where
  result : Except SpawnError Unit
  host : Host
  storeKills : List CommandChild
  relayLogs : List LogEntry
  logs : List LogEntry
deriving Repr

/-- The function `start_backend` (lib.rs lines 54 to 102). The spawn outcome is supplied
by the environment: on `Err` the `?` operator returns the error at once
(no store, no relay); on `Ok((rx, child))` the handle is stored, the relay
task drains `rx`, the task sleeps five seconds, prints the readiness line,
and returns `Ok(())`. -/
def start_backend (host : Host)
    (spawnRes : Except SpawnError (List CommandEvent × CommandChild)) : BackendRun :=
  match spawnRes with
  | .error e =>
      { result := .error e
        host := host
        storeKills := []
        relayLogs := []
        logs := [LogEntry.out ("Intentando iniciar sidecar: " ++ sidecarName)] }
  | .ok (rx, child) =>
      let st := storeHandle host child
      { result := .ok ()
        host := st.host
        storeKills := st.kills
        relayLogs := relayLoop rx
        logs := [LogEntry.out ("Intentando iniciar sidecar: " ++ sidecarName),
                 LogEntry.out "Backend debería estar listo en http://localhost:8080"] }

/-- The startup task spawned in `setup` (lib.rs lines 28 to 33): it awaits
`start_backend` once and logs the outcome; an `Err` is only logged, the
task then ends, and no retry is attempted.

    match start_backend(&app_handle).await {
      Ok(_) => println!("Backend iniciado correctamente"),
      Err(e) => eprintln!("Error al iniciar backend: {}", e),
    } -/
def setupTaskLogs (run : BackendRun) : List LogEntry :=
  match run.result with
  | .ok _ => [LogEntry.out "Backend iniciado correctamente"]
  | .error e => [LogEntry.err ("Error al iniciar backend: " ++ e.msg)]

/-- The atomic steps of the startup task, in program order. Relay events
run on a separate task spawned after the store statement, so in every
interleaving each relay step comes after the store step. -/
inductive Step where
  | spawnAttempt
  | store (child : CommandChild)
  | relay (e : CommandEvent)
  | sleep
  | closeReq
deriving DecidableEq, Repr

/-- Does this step belong to the relay task? -/
def Step.isRelay : Step → Bool
  | .relay _ => true
  | _ => false

/-- Effect of one step on the host state. `spawnAttempt`, `relay` and
`sleep` do not touch the supervisor: the spawn and the sleep only
suspend the startup task, and every relay arm only prints. -/
def execStep (killOk : CommandChild → Bool) (host : Host) : Step → Host
  | .spawnAttempt => host
  | .store child => (storeHandle host child).host
  | .relay _ => host
  | .sleep => host
  | .closeReq => (closeHandler killOk host).host

/-- Run a list of steps from a host state. -/
def execSteps (killOk : CommandChild → Bool) (host : Host) : List Step → Host
  | [] => host
  | s :: rest => execSteps killOk (execStep killOk host s) rest

/-- The step trace of the startup task, in program order: the spawn
attempt; then, if it succeeded, the store, the relay steps (their task is
spawned after the store), and the five-second sleep. On failure the `?`
operator ends `start_backend` right after the spawn attempt, storing
nothing. -/
def startTrace : Except SpawnError (List CommandEvent × CommandChild) → List Step
  | .error _ => [Step.spawnAttempt]
  | .ok (rx, child) =>
      Step.spawnAttempt :: Step.store child :: (rx.map Step.relay ++ [Step.sleep])

/-- Steps that never touch the supervisor state (spawn attempt, relay
steps, sleeps) leave the host unchanged. -/
theorem execSteps_inert (killOk : CommandChild → Bool) (host : Host) (steps : List Step)
    (h : ∀ s ∈ steps, s.isRelay = true ∨ s = Step.sleep ∨ s = Step.spawnAttempt) :
    execSteps killOk host steps = host := by
  induction steps generalizing host with
  | nil => rfl
  | cons s rest ih =>
      have hstep : execStep killOk host s = host := by
        rcases h s (List.mem_cons_self s rest) with hr | hr | hr
        · cases s <;> simp_all [Step.isRelay, execStep]
        · rw [hr]; rfl
        · rw [hr]; rfl
      show execSteps killOk (execStep killOk host s) rest = host
      rw [hstep]
      exact ih host fun s hs => h s (List.mem_cons_of_mem _ hs)

/-- C1. The take-and-kill operation of the close handler: with the app
state available and the lock healthy, a present handle is removed from
the state and a kill signal is sent to exactly that handle (with the stop
log line printed); an absent handle makes the call a no-op that returns
normally. After any first call the state holds no handle, so a second
consecutive call is a no-op that kills nothing, prints nothing, and
leaves the state empty. -/
theorem claim_C1_take_and_kill (killOk : CommandChild → Bool) (host : Host)
    (hs : host.stateAvailable = true) (hp : host.poisoned = false) :
    (∀ c, host.handle = some c →
      closeHandler killOk host =
        ⟨{ host with handle := none }, [c], [LogEntry.out "Backend detenido"]⟩) ∧
    (host.handle = none → closeHandler killOk host = ⟨host, [], []⟩) ∧
    (closeHandler killOk host).host.handle = none ∧
    closeHandler killOk (closeHandler killOk host).host =
      ⟨(closeHandler killOk host).host, [], []⟩ := by
  cases hh : host.handle with
  | none =>
      have h1 : closeHandler killOk host = ⟨host, [], []⟩ := by
        simp [closeHandler, hs, hp, hh]
      refine ⟨?_, ?_, ?_, ?_⟩
      · intro c hc
        exact absurd hc (by simp)
      · intro _
        exact h1
      · rw [h1]
        exact hh
      · rw [h1]
        exact h1
  | some c =>
      have h1 : closeHandler killOk host =
          ⟨{ host with handle := none }, [c], [LogEntry.out "Backend detenido"]⟩ := by
        simp [closeHandler, hs, hp, hh]
      have h2 : closeHandler killOk { host with handle := none } =
          ⟨{ host with handle := none }, [], []⟩ := by
        simp [closeHandler, hs, hp]
      refine ⟨?_, ?_, ?_, ?_⟩
      · intro c2 hc2
        injection hc2 with hcc
        subst hcc
        exact h1
      · intro hnone
        exact absurd hnone (by simp)
      · rw [h1]
      · rw [h1]
        exact h2

/-- Witness for C1 at a concrete host holding handle 7: the first call
removes and kills handle 7, and the second call is a no-op. -/
theorem claim_C1_witness :
    closeHandler (fun _ => true) ⟨true, false, some ⟨7⟩⟩ =
      ⟨⟨true, false, none⟩, [⟨7⟩], [LogEntry.out "Backend detenido"]⟩ ∧
    closeHandler (fun _ => true)
        (closeHandler (fun _ => true) ⟨true, false, some ⟨7⟩⟩).host =
      ⟨(closeHandler (fun _ => true) ⟨true, false, some ⟨7⟩⟩).host, [], []⟩ := by
  have h := claim_C1_take_and_kill (fun _ => true) ⟨true, false, some ⟨7⟩⟩ rfl rfl
  exact ⟨h.1 ⟨7⟩ rfl, h.2.2.2⟩

/-- C2. Last write wins: with the app state available and the lock
healthy, after any nonempty sequence of stores the supervisor holds
exactly the last stored handle, and the whole sequence sends no kill
signal to any handle (a replaced handle is silently discarded). -/
theorem claim_C2_store_last_write_wins (host : Host)
    (hs : host.stateAvailable = true) (hp : host.poisoned = false)
    (cs : List CommandChild) :
    (storeSeq host cs).2 = [] ∧
    (∀ c, cs.getLast? = some c → (storeSeq host cs).1.handle = some c) := by
  induction cs generalizing host with
  | nil => exact ⟨rfl, fun c hc => by cases hc⟩
  | cons c rest ih =>
      have hstore : storeHandle host c = ⟨{ host with handle := some c }, [], []⟩ := by
        simp [storeHandle, hs, hp]
      have ih2 := ih { host with handle := some c } hs hp
      cases rest with
      | nil =>
          refine ⟨?_, fun c2 hc2 => ?_⟩
          · simp [storeSeq, hstore]
          · simp only [List.getLast?_singleton, Option.some.injEq] at hc2
            subst hc2
            simp [storeSeq, hstore]
      | cons d ds =>
          refine ⟨?_, fun c2 hc2 => ?_⟩
          · simp [storeSeq, hstore]
            have := ih2.1
            simp [storeSeq] at this ⊢
            exact this
          · rw [List.getLast?_cons_cons] at hc2
            have := ih2.2 c2 hc2
            simp [storeSeq, hstore] at this ⊢
            exact this

/-- Witness for C2 at the concrete sequence storing handles 1, 2, 3 into
an initially empty supervisor: the final handle is 3 and no kill signal
was sent. -/
theorem claim_C2_witness :
    (storeSeq ⟨true, false, none⟩ [⟨1⟩, ⟨2⟩, ⟨3⟩]).2 = [] ∧
    (storeSeq ⟨true, false, none⟩ [⟨1⟩, ⟨2⟩, ⟨3⟩]).1.handle = some ⟨3⟩ := by
  have h := claim_C2_store_last_write_wins ⟨true, false, none⟩ rfl rfl [⟨1⟩, ⟨2⟩, ⟨3⟩]
  exact ⟨h.1, h.2 ⟨3⟩ rfl⟩

/-- C3. Ordering in the startup task: on a successful spawn the store
step sits at position 1 of the trace, right after the spawn attempt, and
every relay step sits strictly later; consequently (app state available,
lock healthy) after any prefix of the trace that extends past the store
— that is, at any moment while the relay steps or the startup sleep are
still pending — the supervisor holds the spawned handle, so a close
request arriving then cannot observe an empty supervisor. -/
theorem claim_C3_store_before_relay (rx : List CommandEvent) (child : CommandChild)
    (host : Host) (killOk : CommandChild → Bool)
    (hs : host.stateAvailable = true) (hp : host.poisoned = false) :
    (startTrace (.ok (rx, child))).get? 1 = some (Step.store child) ∧
    (∀ i e, (startTrace (.ok (rx, child))).get? i = some (Step.relay e) → 2 ≤ i) ∧
    (∀ k, 2 ≤ k →
      (execSteps killOk host ((startTrace (.ok (rx, child))).take k)).handle = some child) := by
  refine ⟨rfl, ?_, ?_⟩
  · intro i e hi
    match i with
    | 0 => simp [startTrace] at hi
    | 1 => simp [startTrace] at hi
    | n + 2 => omega
  · intro k hk
    obtain ⟨m, rfl⟩ : ∃ m, k = m + 2 := ⟨k - 2, by omega⟩
    have htake : (startTrace (.ok (rx, child))).take (m + 2) =
        Step.spawnAttempt :: Step.store child ::
          (rx.map Step.relay ++ [Step.sleep]).take m := rfl
    rw [htake]
    have hstore : storeHandle host child = ⟨{ host with handle := some child }, [], []⟩ := by
      simp [storeHandle, hs, hp]
    show (execSteps killOk ((storeHandle host child).host)
        ((rx.map Step.relay ++ [Step.sleep]).take m)).handle = some child
    rw [hstore]
    rw [execSteps_inert]
    intro s hsmem
    have hsmem2 : s ∈ rx.map Step.relay ++ [Step.sleep] := List.take_subset m _ hsmem
    rcases List.mem_append.mp hsmem2 with hrel | hsl
    · obtain ⟨e, _, rfl⟩ := List.mem_map.mp hrel
      exact Or.inl rfl
    · exact Or.inr (Or.inl (List.mem_singleton.mp hsl))

/-- Witness for C3: empty event channel, handle 1, initially empty
supervisor; after the first two trace steps the supervisor holds
handle 1. -/
theorem claim_C3_witness :
    (execSteps (fun _ => true) ⟨true, false, none⟩
      ((startTrace (.ok ([], ⟨1⟩))).take 2)).handle = some ⟨1⟩ :=
  (claim_C3_store_before_relay [] ⟨1⟩ ⟨true, false, none⟩ (fun _ => true) rfl rfl).2.2
    2 (by omega)

/-- C4. Relay dispatch: a stdout event is lossily decoded and printed to
the stdout log, a stderr event lossily decoded and printed to the stderr
log, an error event printed to the stderr log, a terminated event printed
to the stdout (informational) log without touching the supervisor state,
and any other event kind produces no output; the loop output is the
concatenation of the per-event output over the whole channel, and the
loop ends exactly at the end of the channel (the empty channel yields
nothing). -/
theorem claim_C4_relay_dispatch :
    (∀ line, relayEvent (CommandEvent.stdout line) =
        [LogEntry.out ("[Backend STDOUT] " ++ fromUtf8Lossy line)]) ∧
    (∀ line, relayEvent (CommandEvent.stderr line) =
        [LogEntry.err ("[Backend STDERR] " ++ fromUtf8Lossy line)]) ∧
    (∀ s, relayEvent (CommandEvent.error s) = [LogEntry.err ("[Backend ERROR] " ++ s)]) ∧
    (∀ p, relayEvent (CommandEvent.terminated p) =
        [LogEntry.out ("[Backend] Proceso terminado: " ++ payloadDebug p)]) ∧
    (∀ killOk host p, execStep killOk host (Step.relay (CommandEvent.terminated p)) = host) ∧
    relayEvent CommandEvent.other = [] ∧
    (∀ evs, relayLoop evs = (evs.map relayEvent).flatten) ∧
    relayLoop [] = [] := by
  refine ⟨fun _ => rfl, fun _ => rfl, fun _ => rfl, fun _ => rfl, fun _ _ _ => rfl, rfl,
    ?_, rfl⟩
  intro evs
  induction evs with
  | nil => rfl
  | cons e rest ih => simp [relayLoop, ih]

/-- C5. Spawn failure: when the spawn outcome is an error,
`start_backend` returns exactly that error, the host state is untouched
(in particular an empty supervisor stays empty, since no store occurs),
the setup task logs the failure to stderr, and the startup trace ends
right after the single spawn attempt — no store step and no retry. -/
theorem claim_C5_spawn_failure (host : Host) (e : SpawnError) :
    (start_backend host (.error e)).result = .error e ∧
    (start_backend host (.error e)).host = host ∧
    setupTaskLogs (start_backend host (.error e)) =
      [LogEntry.err ("Error al iniciar backend: " ++ e.msg)] ∧
    startTrace (.error e) = [Step.spawnAttempt] ∧
    (startTrace (.error e)).count Step.spawnAttempt = 1 ∧
    (∀ c, Step.store c ∉ startTrace (.error e)) := by
  refine ⟨rfl, rfl, rfl, rfl, rfl, ?_⟩
  intro c
  simp [startTrace]

/-- Counterexample to C6 as stated: with the lock poisoned (host has the
app state available, lock poisoned, handle 3 stored), neither the store
path nor the close-handler path emits any log line — the claim that a
log line is emitted in one of the two code paths is false. -/
theorem claim_C6_counterexample :
    (Host.mk true true (some ⟨3⟩)).poisoned = true ∧
    ¬ ((storeHandle (Host.mk true true (some ⟨3⟩)) ⟨4⟩).logs ≠ [] ∨
       (closeHandler (fun _ => true) (Host.mk true true (some ⟨3⟩))).logs ≠ []) := by
  refine ⟨rfl, ?_⟩
  intro h
  rcases h with h | h <;> exact h rfl

/-- C6 (amended). For both supervisor operations, a poisoned lock makes
the operation a silent no-op: the state is neither read nor written, no
kill signal is sent, no error is surfaced to the caller, and no log line
is emitted in either code path. -/
theorem claim_C6_lock_poisoned (host : Host) (child : CommandChild)
    (killOk : CommandChild → Bool) (hp : host.poisoned = true) :
    storeHandle host child = ⟨host, [], []⟩ ∧
    closeHandler killOk host = ⟨host, [], []⟩ := by
  cases hsa : host.stateAvailable <;>
    simp [storeHandle, closeHandler, hsa, hp]

/-- Witness for C6 (amended) at a concrete poisoned host: both operations
return the host unchanged with no kills and no logs. -/
theorem claim_C6_witness :
    storeHandle ⟨true, true, some ⟨3⟩⟩ ⟨4⟩ = ⟨⟨true, true, some ⟨3⟩⟩, [], []⟩ ∧
    closeHandler (fun _ => true) ⟨true, true, some ⟨3⟩⟩ =
      ⟨⟨true, true, some ⟨3⟩⟩, [], []⟩ :=
  claim_C6_lock_poisoned ⟨true, true, some ⟨3⟩⟩ ⟨4⟩ (fun _ => true) rfl

/-- C7. On the concrete channel delivering a stdout "ready" line and then
a termination with exit code 0 before closing, the relay produces exactly
two log entries, the stdout entry first and the termination entry second,
and nothing more. -/
theorem claim_C7_ready_then_terminated :
    relayLoop [CommandEvent.stdout [114, 101, 97, 100, 121],
               CommandEvent.terminated ⟨some 0, none⟩] =
      [LogEntry.out "[Backend STDOUT] ready",
       LogEntry.out
         "[Backend] Proceso terminado: TerminatedPayload { code: Some(0), signal: None }"] ∧
    (relayLoop [CommandEvent.stdout [114, 101, 97, 100, 121],
                CommandEvent.terminated ⟨some 0, none⟩]).length = 2 := by
  constructor <;> decide

/-- C8. A successful spawn makes `start_backend` return `Ok(())` even
when the store was skipped because the app state was unavailable or the
lock was poisoned: the host (and so the supervisor handle) is unchanged,
so success does not guarantee the supervisor holds the handle. -/
theorem claim_C8_ok_without_store (host : Host) (rx : List CommandEvent)
    (child : CommandChild)
    (h : host.stateAvailable = false ∨ host.poisoned = true) :
    (start_backend host (.ok (rx, child))).result = .ok () ∧
    (start_backend host (.ok (rx, child))).host = host := by
  rcases h with h | h
  · cases hp : host.poisoned <;> simp [start_backend, storeHandle, h, hp]
  · cases hsa : host.stateAvailable <;> simp [start_backend, storeHandle, h, hsa]

/-- Witness for C8: app state unavailable, empty supervisor; the run
returns success while the supervisor handle is still absent. -/
theorem claim_C8_witness :
    (start_backend ⟨false, false, none⟩ (.ok ([], ⟨1⟩))).result = .ok () ∧
    (start_backend ⟨false, false, none⟩ (.ok ([], ⟨1⟩))).host = ⟨false, false, none⟩ :=
  claim_C8_ok_without_store ⟨false, false, none⟩ [] ⟨1⟩ (Or.inl rfl)

/-- C9. The close handler discards the result of `kill`: its outcome is
the same for every kill-result environment; in particular on a host
holding a handle, whether the kill succeeds or fails the handle is
removed and the same success log line is printed, with nothing raised or
propagated. -/
theorem claim_C9_kill_result_ignored :
    (∀ (killOk killOk2 : CommandChild → Bool) (host : Host),
      closeHandler killOk host = closeHandler killOk2 host) ∧
    (∀ (b : Bool) (c : CommandChild),
      closeHandler (fun _ => b) (Host.mk true false (some c)) =
        ⟨Host.mk true false none, [c], [LogEntry.out "Backend detenido"]⟩) := by
  constructor
  · intro killOk killOk2 host
    cases host with
    | mk sa p h => cases sa <;> cases p <;> cases h <;> rfl
  · intro b c
    rfl

/-- C10. The relay never modifies the supervisor: a single relay step is
the identity on the host state, and any sequence of steps (stores, close
requests, relay events, sleeps) leads to exactly the host state reached
with all relay steps removed — only the other steps, such as the close
handler, can change it. -/
theorem claim_C10_relay_frame (killOk : CommandChild → Bool) (host : Host)
    (steps : List Step) :
    (∀ (h2 : Host) (e : CommandEvent), execStep killOk h2 (Step.relay e) = h2) ∧
    execSteps killOk host steps =
      execSteps killOk host (steps.filter fun s => ! s.isRelay) := by
  refine ⟨fun _ _ => rfl, ?_⟩
  induction steps generalizing host with
  | nil => rfl
  | cons s rest ih =>
      cases s <;> simp [execSteps, execStep, Step.isRelay, List.filter] <;> exact ih _

end FoodFlow
